import Mathlib

/-!
Shallow embedding of the task orchestration core of the browser-automation
service: the task registry and dispatcher (src/service/task_queue.py and the
task processor of src/service/api_server.py) and the websocket broadcaster
(src/service/websocket_manager.py).

Modelling conventions: Python dictionaries become association lists over
String keys, Python sets become duplicate-free lists, wall-clock readings
(datetime.utcnow()) become explicit natural-number parameters threaded to
each operation, and JSON-like payloads (Dict[str, Any]) become string
association lists.  uuid4 generation is modelled by passing the fresh id as
a parameter, with creation guarded on freshness in the system model.
-/

namespace Svc

/-- Status enumeration TaskStatus of task_queue.py. -/
inductive TaskStatus where
  | pending
  | running
  | completed
  | failed
  | cancelled
deriving DecidableEq, Repr

/-- String value of each status (the .value of the Python enum). -/
def TaskStatus.value : TaskStatus → String
  | .pending => "pending"
  | .running => "running"
  | .completed => "completed"
  | .failed => "failed"
  | .cancelled => "cancelled"

/-- Model of an untyped JSON-like dictionary (Dict[str, Any]). -/
abbrev Payload := List (String × String)

/-- One entry of a task's progress log (timestamp, step, details). -/
structure ProgressEntry where
  timestamp : Nat
  step : String
  details : Payload
deriving DecidableEq, Repr

/-- Dataclass Task of task_queue.py. -/
structure Task where
  id : String
  command : String
  status : TaskStatus
  created_at : Nat
  started_at : Option Nat
  completed_at : Option Nat
  result : Option Payload
  error : Option String
  progress : List ProgressEntry
  llm_provider : String
  llm_model : String
  browser_profile : String
deriving DecidableEq, Repr

/-- Task.add_progress: append one progress entry to the task's log. -/
def Task.add_progress (t : Task) (step : String) (details : Payload) (now : Nat) : Task :=
  { t with progress := t.progress ++ [{ timestamp := now, step := step, details := details }] }

/-- Lookup in an association list (first matching key), mirroring Python dict read. -/
def lookupA {β : Type} : List (String × β) → String → Option β
  | [], _ => none
  | p :: rest, key => if p.1 = key then some p.2 else lookupA rest key

/-- In-place value replacement at the first matching key, mirroring Python dict write
to an existing key. -/
def updateA {β : Type} : List (String × β) → String → β → List (String × β)
  | [], _, _ => []
  | p :: rest, key, v => if p.1 = key then (p.1, v) :: rest else p :: updateA rest key v

/-- Keys of an association list. -/
def keysA {β : Type} (l : List (String × β)) : List String := l.map (fun p => p.1)

/-- Python set.add / dict key insertion: append the element unless already present. -/
def insertOnce {α : Type} [DecidableEq α] (a : α) (l : List α) : List α :=
  if a ∈ l then l else l ++ [a]

/-- State of class TaskQueue of task_queue.py: the task map, the pending FIFO
queue of ids, the concurrency ceiling, and the keys of the running_tasks map
(the asyncio.Task values are irrelevant to the registry's state). -/
structure TaskQueue where
  tasks : List (String × Task)
  pending_queue : List String
  max_concurrent_tasks : Nat
  running_tasks : List String

/-- Fresh TaskQueue as built by TaskQueue.__init__, with ceiling C
(the source hard-codes 3; the ceiling is kept as a parameter). -/
def TaskQueue.init (C : Nat) : TaskQueue :=
  { tasks := [], pending_queue := [], max_concurrent_tasks := C, running_tasks := [] }

/-- TaskQueue.create_task: store a fresh Pending record and enqueue its id.
The uuid4-generated id is a parameter. -/
def create_task (q : TaskQueue) (task_id command : String) (now : Nat)
    (llm_provider llm_model browser_profile : String) : TaskQueue :=
  let task : Task :=
    { id := task_id, command := command, status := TaskStatus.pending,
      created_at := now, started_at := none, completed_at := none,
      result := none, error := none, progress := [],
      llm_provider := llm_provider, llm_model := llm_model,
      browser_profile := browser_profile }
  { q with tasks := q.tasks ++ [(task_id, task)],
           pending_queue := q.pending_queue ++ [task_id] }

/-- Field updates applied by TaskQueue.update_task_status to a found task:
set the status unconditionally, set started_at on Running when unset,
overwrite completed_at on any terminal status, then attach the optional
result / error keyword arguments. -/
def applyUpdate (t : Task) (st : TaskStatus) (now : Nat)
    (res : Option Payload) (err : Option String) : Task :=
  let t1 := { t with status := st }
  let t2 :=
    if st = TaskStatus.running ∧ t1.started_at = none then
      { t1 with started_at := some now }
    else if st = TaskStatus.completed ∨ st = TaskStatus.failed ∨ st = TaskStatus.cancelled then
      { t1 with completed_at := some now }
    else t1
  let t3 := match res with
    | some r => { t2 with result := some r }
    | none => t2
  match err with
  | some e => { t3 with error := some e }
  | none => t3

/-- TaskQueue.update_task_status: silently returns when the id is unknown,
otherwise applies the field updates of applyUpdate to the stored record. -/
def update_task_status (q : TaskQueue) (task_id : String) (st : TaskStatus) (now : Nat)
    (res : Option Payload) (err : Option String) : TaskQueue :=
  match lookupA q.tasks task_id with
  | none => q
  | some t => { q with tasks := updateA q.tasks task_id (applyUpdate t st now res err) }

/-- TaskQueue.add_task_progress: append a progress entry when the id is known,
regardless of the task's status; silently return otherwise. -/
def add_task_progress (q : TaskQueue) (task_id step : String) (details : Payload)
    (now : Nat) : TaskQueue :=
  match lookupA q.tasks task_id with
  | none => q
  | some t => { q with tasks := updateA q.tasks task_id (t.add_progress step details now) }

/-- TaskQueue.cancel_task: False on unknown id; otherwise drop the id from the
running map when present and apply update_task_status with Cancelled. -/
def cancel_task (q : TaskQueue) (task_id : String) (now : Nat) : TaskQueue × Bool :=
  match lookupA q.tasks task_id with
  | none => (q, false)
  | some _ =>
    let q1 := if task_id ∈ q.running_tasks then
        { q with running_tasks := q.running_tasks.erase task_id }
      else q
    (update_task_status q1 task_id TaskStatus.cancelled now none none, true)

/-- TaskQueue.mark_task_running: record the id in the running map, then
update the status to Running. -/
def mark_task_running (q : TaskQueue) (task_id : String) (now : Nat) : TaskQueue :=
  update_task_status { q with running_tasks := insertOnce task_id q.running_tasks }
    task_id TaskStatus.running now none none

/-- TaskQueue.mark_task_completed: drop the id from the running map when
present, then update the status to Completed with the result attached. -/
def mark_task_completed (q : TaskQueue) (task_id : String) (res : Payload) (now : Nat) :
    TaskQueue :=
  let q1 := if task_id ∈ q.running_tasks then
      { q with running_tasks := q.running_tasks.erase task_id }
    else q
  update_task_status q1 task_id TaskStatus.completed now (some res) none

/-- TaskQueue.mark_task_failed: drop the id from the running map when present,
then update the status to Failed with the error attached. -/
def mark_task_failed (q : TaskQueue) (task_id err : String) (now : Nat) : TaskQueue :=
  let q1 := if task_id ∈ q.running_tasks then
      { q with running_tasks := q.running_tasks.erase task_id }
    else q
  update_task_status q1 task_id TaskStatus.failed now none (some err)

/-- Status of a stored task, as a query on the queue state. -/
def statusOf (q : TaskQueue) (task_id : String) : Option TaskStatus :=
  (lookupA q.tasks task_id).map Task.status

/-- Record returned by TaskQueue.get_task_status (exactly the keys the source
builds: execution parameters are not among them). -/
structure TaskStatusInfo where
  id : String
  status : String
  created_at : Nat
  started_at : Option Nat
  completed_at : Option Nat
  command : String
  progress_steps : Nat
  has_result : Bool
  error : Option String
deriving DecidableEq, Repr

/-- TaskQueue.get_task_status: None on unknown id, else the status snapshot. -/
def get_task_status (q : TaskQueue) (task_id : String) : Option TaskStatusInfo :=
  (lookupA q.tasks task_id).map fun t =>
    { id := t.id, status := t.status.value, created_at := t.created_at,
      started_at := t.started_at, completed_at := t.completed_at,
      command := t.command, progress_steps := t.progress.length,
      has_result := t.result.isSome, error := t.error }

/-- Outcome of the GET result endpoint of api_server.py. -/
inductive ResultResponse where
  | notFound
  | notCompleted (detail : String)
  | ok (task_id : String) (result : Option Payload) (progress : List ProgressEntry)
      (completed_at : Option Nat)
deriving DecidableEq, Repr

/-- get_task_result of api_server.py: 404 on unknown id; 400 with a detail
string naming only the current status when the task is not Completed; the
stored result payload (with progress log and completion time) otherwise. -/
def get_task_result (q : TaskQueue) (task_id : String) : ResultResponse :=
  match lookupA q.tasks task_id with
  | none => ResultResponse.notFound
  | some t =>
    if t.status ≠ TaskStatus.completed then
      ResultResponse.notCompleted ("Task not completed (status: " ++ t.status.value ++ ")")
    else
      ResultResponse.ok task_id t.result t.progress t.completed_at

/-- Number of stored tasks whose status is Running (the Running entry of
get_queue_stats' status breakdown). -/
def runningCount (q : TaskQueue) : Nat :=
  (q.tasks.filter (fun p => p.2.status = TaskStatus.running)).length

/-- Legal lifecycle edges of the state machine in spec section 4.2.
Modelled from the spec's words, for comparison with the code's behaviour. -/
def specLegalEdge : TaskStatus → TaskStatus → Bool
  | .pending, .running => true
  | .pending, .cancelled => true
  | .running, .completed => true
  | .running, .failed => true
  | .running, .cancelled => true
  | _, _ => false

/-- One iteration of the task_processor loop of api_server.py that dequeued
task_id: when the running map has reached the ceiling, the id is put back at
the tail of the queue; otherwise the task is admitted via mark_task_running. -/
def dispatchStep (q : TaskQueue) (now : Nat) : TaskQueue :=
  match q.pending_queue with
  | [] => q
  | task_id :: rest =>
    if q.max_concurrent_tasks ≤ q.running_tasks.length then
      { q with pending_queue := rest ++ [task_id] }
    else
      mark_task_running { q with pending_queue := rest } task_id now

/-- Events driving the orchestrator: task creation (with the uuid4 id as a
parameter), one dispatch-loop iteration, a worker terminating in success or
failure, a cancel request, and a worker progress callback. -/
inductive Action where
  | create (task_id command llm_provider llm_model browser_profile : String)
  | dispatch
  | complete (task_id : String) (res : Payload)
  | fail (task_id : String) (err : String)
  | cancel (task_id : String)
  | progress (task_id step : String) (details : Payload)

/-- Orchestrator state: the queue plus a clock supplying utcnow readings. -/
structure SysState where
  queue : TaskQueue
  clock : Nat

/-- Effect of one event on the orchestrator state.  Creation with an id that
already exists is a no-op on the queue (uuid4 ids are unique); every event
advances the clock. -/
def sysStep (s : SysState) : Action → SysState
  | .create task_id command prov mdl prof =>
    match lookupA s.queue.tasks task_id with
    | some _ => { s with clock := s.clock + 1 }
    | none =>
      { queue := create_task s.queue task_id command s.clock prov mdl prof,
        clock := s.clock + 1 }
  | .dispatch => { queue := dispatchStep s.queue s.clock, clock := s.clock + 1 }
  | .complete task_id res =>
      { queue := mark_task_completed s.queue task_id res s.clock, clock := s.clock + 1 }
  | .fail task_id err =>
      { queue := mark_task_failed s.queue task_id err s.clock, clock := s.clock + 1 }
  | .cancel task_id =>
      { queue := (cancel_task s.queue task_id s.clock).1, clock := s.clock + 1 }
  | .progress task_id step details =>
      { queue := add_task_progress s.queue task_id step details s.clock, clock := s.clock + 1 }

/-- Initial orchestrator state with concurrency ceiling C. -/
def initSys (C : Nat) : SysState := { queue := TaskQueue.init C, clock := 0 }

/-- Run a sequence of events from a state. -/
def runSys (s : SysState) (acts : List Action) : SysState := acts.foldl sysStep s

/-- State of class WebSocketManager of websocket_manager.py: the set of active
connections and the per-task subscriber sets.  Connections are modelled as
natural-number handles; Python sets as duplicate-free lists. -/
structure WSState where
  active_connections : List Nat
  task_subscribers : List (String × List Nat)

/-- WebSocketManager.connect: record the connection as active and, when a task
id is supplied, add it to that task's subscriber set (creating the set). -/
def WSState.connect (s : WSState) (ws : Nat) : Option String → WSState
  | none => { s with active_connections := insertOnce ws s.active_connections }
  | some tid =>
    match lookupA s.task_subscribers tid with
    | none =>
      { active_connections := insertOnce ws s.active_connections,
        task_subscribers := s.task_subscribers ++ [(tid, [ws])] }
    | some subs =>
      { active_connections := insertOnce ws s.active_connections,
        task_subscribers := updateA s.task_subscribers tid (insertOnce ws subs) }

/-- WebSocketManager.disconnect: discard the connection from the active set and
from every subscriber set, deleting subscriber sets left empty. -/
def WSState.disconnect (s : WSState) (ws : Nat) : WSState :=
  { active_connections := s.active_connections.erase ws,
    task_subscribers :=
      (s.task_subscribers.map (fun p => (p.1, p.2.erase ws))).filter
        (fun p => !p.2.isEmpty) }

/-- WebSocketManager.send_to_all: early return when no connection is active;
otherwise deliver to every active connection and disconnect those whose send
raised.  The parameter fails tells which connections' sends raise. -/
def WSState.send_to_all (s : WSState) (fails : Nat → Bool) : WSState :=
  if s.active_connections.isEmpty then s
  else (s.active_connections.filter fails).foldl WSState.disconnect s

/-- WebSocketManager.send_to_task_subscribers: early return when the task id
has no subscriber entry; otherwise deliver to a copy of the subscriber set and
disconnect those whose send raised. -/
def WSState.send_to_task_subscribers (s : WSState) (task_id : String)
    (fails : Nat → Bool) : WSState :=
  match lookupA s.task_subscribers task_id with
  | none => s
  | some subs => (subs.filter fails).foldl WSState.disconnect s

/-- Broadcaster operations: connect (with optional task filter), disconnect,
system-wide send, per-task send; fails tells which sends raise. -/
inductive WSOp where
  | connect (ws : Nat) (task_id : Option String)
  | disconnect (ws : Nat)
  | sendAll (fails : Nat → Bool)
  | sendTask (task_id : String) (fails : Nat → Bool)

/-- Effect of one broadcaster operation. -/
def wsStep (s : WSState) : WSOp → WSState
  | .connect ws tid => s.connect ws tid
  | .disconnect ws => s.disconnect ws
  | .sendAll fails => s.send_to_all fails
  | .sendTask tid fails => s.send_to_task_subscribers tid fails

/-- Empty broadcaster state built by WebSocketManager.__init__. -/
def initWS : WSState := { active_connections := [], task_subscribers := [] }

/-- Run a sequence of broadcaster operations from a state. -/
def runWS (s : WSState) (ops : List WSOp) : WSState := ops.foldl wsStep s

/-- Bookkeeping invariant of the broadcaster claimed by the spec: every
subscriber is an active connection and no subscriber set is empty. -/
def WSInv (s : WSState) : Prop :=
  (∀ p ∈ s.task_subscribers, ∀ ws ∈ p.2, ws ∈ s.active_connections) ∧
  (∀ p ∈ s.task_subscribers, p.2 ≠ [])

/-- Set-ness of the broadcaster state: the active list and every subscriber
list are duplicate-free (automatic for Python sets). -/
def WSNodup (s : WSState) : Prop :=
  s.active_connections.Nodup ∧ ∀ p ∈ s.task_subscribers, p.2.Nodup

/-! Association-list lemmas. -/

theorem lookupA_eq_none {β : Type} {l : List (String × β)} {k : String} :
    lookupA l k = none ↔ k ∉ keysA l := by
  induction l with
  | nil => simp [lookupA, keysA]
  | cons p rest ih =>
    rw [lookupA, keysA, List.map_cons]
    by_cases h : p.1 = k
    · subst h
      simp
    · rw [if_neg h, ih]
      constructor
      · intro hk hc
        rcases List.mem_cons.1 hc with he | hm
        · exact h he.symm
        · exact hk hm
      · intro hk hm
        exact hk (List.mem_cons_of_mem _ hm)

theorem lookupA_mem {β : Type} {l : List (String × β)} {k : String} {v : β}
    (h : lookupA l k = some v) : (k, v) ∈ l := by
  induction l with
  | nil => simp [lookupA] at h
  | cons p rest ih =>
    by_cases hk : p.1 = k
    · rw [lookupA, if_pos hk] at h
      cases h
      have hp : (k, p.2) = p := by rw [← hk]
      rw [hp]
      exact List.mem_cons_self _ _
    · rw [lookupA, if_neg hk] at h
      exact List.mem_cons_of_mem _ (ih h)

theorem lookupA_updateA_self {β : Type} {l : List (String × β)} {k : String} {v0 v : β}
    (h : lookupA l k = some v0) : lookupA (updateA l k v) k = some v := by
  induction l with
  | nil => simp [lookupA] at h
  | cons p rest ih =>
    by_cases hk : p.1 = k
    · simp [updateA, hk, lookupA]
    · rw [lookupA, if_neg hk] at h
      simp [updateA, hk, lookupA, ih h]

theorem lookupA_updateA_ne {β : Type} {l : List (String × β)} {k k2 : String} {v : β}
    (h : k2 ≠ k) : lookupA (updateA l k v) k2 = lookupA l k2 := by
  induction l with
  | nil => rfl
  | cons p rest ih =>
    by_cases hk : p.1 = k
    · rw [updateA, if_pos hk, lookupA, lookupA]
      have hp2 : ¬ p.1 = k2 := by
        rw [hk]
        exact fun hkk => h hkk.symm
      rw [if_neg hp2, if_neg hp2]
    · rw [updateA, if_neg hk, lookupA, lookupA]
      by_cases hp2 : p.1 = k2
      · rw [if_pos hp2, if_pos hp2]
      · rw [if_neg hp2, if_neg hp2, ih]

theorem updateA_of_none {β : Type} {l : List (String × β)} {k : String} {v : β}
    (h : lookupA l k = none) : updateA l k v = l := by
  induction l with
  | nil => simp [updateA]
  | cons p rest ih =>
    by_cases hk : p.1 = k
    · rw [lookupA, if_pos hk] at h
      cases h
    · rw [lookupA, if_neg hk] at h
      simp [updateA, hk, ih h]

theorem keysA_updateA {β : Type} {l : List (String × β)} {k : String} {v : β} :
    keysA (updateA l k v) = keysA l := by
  induction l with
  | nil => simp [updateA]
  | cons p rest ih =>
    by_cases hk : p.1 = k
    · simp [updateA, hk, keysA]
    · simp [updateA, hk, keysA] at ih ⊢
      exact ih

theorem mem_keysA {β : Type} {l : List (String × β)} {p : String × β}
    (h : p ∈ l) : p.1 ∈ keysA l := List.mem_map_of_mem _ h

theorem mem_updateA_nodup {β : Type} {l : List (String × β)} {k : String} {v : β}
    {p : String × β} (hn : (keysA l).Nodup) (hp : p ∈ updateA l k v) :
    (p ∈ l ∧ p.1 ≠ k) ∨ p = (k, v) := by
  induction l with
  | nil => simp [updateA] at hp
  | cons q rest ih =>
    rw [keysA, List.map_cons, List.nodup_cons] at hn
    by_cases hk : q.1 = k
    · rw [updateA, if_pos hk] at hp
      rcases List.mem_cons.1 hp with hpv | hpr
      · right
        rw [hpv, hk]
      · left
        refine ⟨List.mem_cons_of_mem _ hpr, ?_⟩
        intro hpk
        exact hn.1 (by rw [hk, ← hpk]; exact mem_keysA hpr)
    · rw [updateA, if_neg hk] at hp
      rcases List.mem_cons.1 hp with hpq | hpr
      · left
        exact ⟨by rw [hpq]; exact List.mem_cons_self _ _, by rw [hpq]; exact hk⟩
      · rcases ih hn.2 hpr with ⟨hm, hne⟩ | hv
        · exact Or.inl ⟨List.mem_cons_of_mem _ hm, hne⟩
        · exact Or.inr hv

/-! insertOnce lemmas. -/

theorem mem_insertOnce_self {α : Type} [DecidableEq α] (a : α) (l : List α) :
    a ∈ insertOnce a l := by
  unfold insertOnce
  by_cases h : a ∈ l
  · simp [h]
  · simp [h]

theorem mem_insertOnce_of_mem {α : Type} [DecidableEq α] {b : α} (a : α) {l : List α}
    (h : b ∈ l) : b ∈ insertOnce a l := by
  unfold insertOnce
  by_cases ha : a ∈ l <;> simp [ha, h]

theorem length_insertOnce_le {α : Type} [DecidableEq α] (a : α) (l : List α) :
    (insertOnce a l).length ≤ l.length + 1 := by
  unfold insertOnce
  by_cases ha : a ∈ l <;> simp [ha]

theorem nodup_append_singleton {α : Type} {a : α} {l : List α}
    (h : l.Nodup) (ha : a ∉ l) : (l ++ [a]).Nodup := by
  rw [List.nodup_append]
  refine ⟨h, List.nodup_singleton a, ?_⟩
  intro x hx hxa
  rw [List.mem_singleton] at hxa
  exact ha (hxa ▸ hx)

theorem nodup_insertOnce {α : Type} [DecidableEq α] (a : α) {l : List α}
    (h : l.Nodup) : (insertOnce a l).Nodup := by
  by_cases ha : a ∈ l
  · simp only [insertOnce, if_pos ha]
    exact h
  · simp only [insertOnce, if_neg ha]
    exact nodup_append_singleton h ha

/-! Field-level description of applyUpdate, and its consequences. -/

theorem applyUpdate_eq (t : Task) (st : TaskStatus) (now : Nat)
    (res : Option Payload) (err : Option String) :
    applyUpdate t st now res err =
      { t with
        status := st,
        started_at :=
          if st = TaskStatus.running ∧ t.started_at = none then some now else t.started_at,
        completed_at :=
          if st = TaskStatus.completed ∨ st = TaskStatus.failed ∨ st = TaskStatus.cancelled
          then some now else t.completed_at,
        result := res.or t.result,
        error := err.or t.error } := by
  cases st <;> cases res <;> cases err <;> cases hs : t.started_at <;>
    simp [applyUpdate, Option.or, hs]

theorem applyUpdate_status (t : Task) (st : TaskStatus) (now : Nat)
    (res : Option Payload) (err : Option String) :
    (applyUpdate t st now res err).status = st := by
  rw [applyUpdate_eq]

theorem applyUpdate_started_at_of_set (t : Task) (st : TaskStatus) (now x : Nat)
    (res : Option Payload) (err : Option String) (h : t.started_at = some x) :
    (applyUpdate t st now res err).started_at = some x := by
  rw [applyUpdate_eq]
  simp [h]

theorem applyUpdate_completed_at_terminal (t : Task) (st : TaskStatus) (now : Nat)
    (res : Option Payload) (err : Option String)
    (h : st = TaskStatus.completed ∨ st = TaskStatus.failed ∨ st = TaskStatus.cancelled) :
    (applyUpdate t st now res err).completed_at = some now := by
  rw [applyUpdate_eq]
  simp [h]

theorem applyUpdate_params (t : Task) (st : TaskStatus) (now : Nat)
    (res : Option Payload) (err : Option String) :
    (applyUpdate t st now res err).llm_provider = t.llm_provider ∧
    (applyUpdate t st now res err).llm_model = t.llm_model ∧
    (applyUpdate t st now res err).browser_profile = t.browser_profile := by
  rw [applyUpdate_eq]
  exact ⟨rfl, rfl, rfl⟩

/-! Equations for update_task_status. -/

theorem update_unknown (q : TaskQueue) (task_id : String) (st : TaskStatus) (now : Nat)
    (res : Option Payload) (err : Option String)
    (h : lookupA q.tasks task_id = none) :
    update_task_status q task_id st now res err = q := by
  unfold update_task_status
  rw [h]

theorem update_known (q : TaskQueue) (task_id : String) (t : Task) (st : TaskStatus)
    (now : Nat) (res : Option Payload) (err : Option String)
    (h : lookupA q.tasks task_id = some t) :
    update_task_status q task_id st now res err =
      { q with tasks := updateA q.tasks task_id (applyUpdate t st now res err) } := by
  unfold update_task_status
  rw [h]

/-! Dispatcher invariant: the keys of the task map are distinct, the running
map is duplicate-free and within the ceiling, and every Running-status task is
tracked in the running map. -/

/-- Every task whose status is Running has its id in the running list. -/
def RunSub (tasks : List (String × Task)) (r : List String) : Prop :=
  ∀ p ∈ tasks, p.2.status = TaskStatus.running → p.1 ∈ r

/-- Reachability invariant of the queue for ceiling C. -/
def QInv (C : Nat) (q : TaskQueue) : Prop :=
  (keysA q.tasks).Nodup ∧ q.running_tasks.Nodup ∧ RunSub q.tasks q.running_tasks ∧
  q.running_tasks.length ≤ C ∧ q.max_concurrent_tasks = C

theorem RunSub_updateA {tasks : List (String × Task)} {r r' : List String}
    {task_id : String} {t' : Task} (hn : (keysA tasks).Nodup) (hsub : RunSub tasks r)
    (hr : ∀ x ∈ r, x ≠ task_id → x ∈ r')
    (ht' : t'.status = TaskStatus.running → task_id ∈ r') :
    RunSub (updateA tasks task_id t') r' := by
  intro p hp hrun
  rcases mem_updateA_nodup hn hp with ⟨hpl, hpne⟩ | rfl
  · exact hr _ (hsub _ hpl hrun) hpne
  · exact ht' hrun

/-- update_task_status preserves the invariant for any replacement running
list that is duplicate-free, within the ceiling, keeps every running id other
than the updated one, and contains the updated id whenever the new status is
Running. -/
theorem QInv_update2 {C : Nat} {q : TaskQueue} (h : QInv C q) (task_id : String)
    (st : TaskStatus) (now : Nat) (res : Option Payload) (err : Option String)
    (r' : List String) (hrn' : r'.Nodup) (hlen' : r'.length ≤ C)
    (hmono : ∀ x ∈ q.running_tasks, x ≠ task_id → x ∈ r')
    (hst : st = TaskStatus.running → task_id ∈ r') :
    QInv C (update_task_status { q with running_tasks := r' } task_id st now res err) := by
  obtain ⟨hkn, _, hsub, _, hmax⟩ := h
  cases hl : lookupA q.tasks task_id with
  | none =>
    rw [update_unknown { q with running_tasks := r' } task_id st now res err hl]
    have hnotin : task_id ∉ keysA q.tasks := lookupA_eq_none.1 hl
    refine ⟨hkn, hrn', ?_, hlen', hmax⟩
    intro p hp hr
    refine hmono _ (hsub p hp hr) ?_
    intro he
    exact hnotin (he ▸ mem_keysA hp)
  | some t =>
    rw [update_known { q with running_tasks := r' } task_id t st now res err hl]
    refine ⟨?_, hrn', ?_, hlen', hmax⟩
    · rw [keysA_updateA]
      exact hkn
    · refine RunSub_updateA hkn hsub hmono ?_
      rw [applyUpdate_status]
      exact hst

theorem dispatchStep_cons (q : TaskQueue) (now : Nat) (task_id : String)
    (rest : List String) (h : q.pending_queue = task_id :: rest) :
    dispatchStep q now =
      if q.max_concurrent_tasks ≤ q.running_tasks.length then
        { q with pending_queue := rest ++ [task_id] }
      else mark_task_running { q with pending_queue := rest } task_id now := by
  unfold dispatchStep
  rw [h]

theorem QInv_init (C : Nat) : QInv C (initSys C).queue := by
  refine ⟨List.nodup_nil, List.nodup_nil, ?_, Nat.zero_le C, rfl⟩
  intro p hp
  exact absurd hp (List.not_mem_nil p)

theorem QInv_sysStep {C : Nat} {s : SysState} (h : QInv C s.queue) (a : Action) :
    QInv C (sysStep s a).queue := by
  obtain ⟨hkn, hrn, hsub, hlen, hmax⟩ := h
  cases a with
  | create task_id command prov mdl prof =>
    simp only [sysStep]
    cases hl : lookupA s.queue.tasks task_id with
    | some t => exact ⟨hkn, hrn, hsub, hlen, hmax⟩
    | none =>
      have hnotin : task_id ∉ keysA s.queue.tasks := lookupA_eq_none.1 hl
      simp only [create_task]
      refine ⟨?_, hrn, ?_, hlen, hmax⟩
      · simp only [keysA, List.map_append, List.map_cons, List.map_nil]
        simp only [keysA] at hkn hnotin
        exact nodup_append_singleton hkn hnotin
      · intro p hp hr
        rcases List.mem_append.1 hp with hpl | hpr
        · exact hsub p hpl hr
        · rw [List.mem_singleton] at hpr
          rw [hpr] at hr
          exact TaskStatus.noConfusion hr
  | dispatch =>
    simp only [sysStep]
    cases hq : s.queue.pending_queue with
    | nil =>
      unfold dispatchStep
      rw [hq]
      exact ⟨hkn, hrn, hsub, hlen, hmax⟩
    | cons task_id rest =>
      rw [dispatchStep_cons s.queue s.clock task_id rest hq]
      by_cases hcap : s.queue.max_concurrent_tasks ≤ s.queue.running_tasks.length
      · rw [if_pos hcap]
        exact ⟨hkn, hrn, hsub, hlen, hmax⟩
      · rw [if_neg hcap]
        have hlt : s.queue.running_tasks.length < C := by
          rw [hmax] at hcap
          exact Nat.lt_of_not_le hcap
        unfold mark_task_running
        exact QInv_update2
          (show QInv C { s.queue with pending_queue := rest } from ⟨hkn, hrn, hsub, hlen, hmax⟩)
          task_id TaskStatus.running s.clock
          none none (insertOnce task_id s.queue.running_tasks)
          (nodup_insertOnce task_id hrn)
          (le_trans (length_insertOnce_le task_id s.queue.running_tasks)
            (Nat.succ_le_of_lt hlt))
          (fun x hx _ => mem_insertOnce_of_mem task_id hx)
          (fun _ => mem_insertOnce_self task_id s.queue.running_tasks)
  | complete task_id res =>
    simp only [sysStep, mark_task_completed]
    by_cases hm : task_id ∈ s.queue.running_tasks
    · rw [if_pos hm]
      exact QInv_update2 ⟨hkn, hrn, hsub, hlen, hmax⟩ task_id TaskStatus.completed s.clock
        (some res) none (s.queue.running_tasks.erase task_id) (hrn.erase task_id)
        (le_trans (s.queue.running_tasks.erase_sublist task_id).length_le hlen)
        (fun x hx hne => (List.mem_erase_of_ne hne).2 hx)
        (fun hc => TaskStatus.noConfusion hc)
    · rw [if_neg hm]
      exact QInv_update2 ⟨hkn, hrn, hsub, hlen, hmax⟩ task_id TaskStatus.completed s.clock
        (some res) none s.queue.running_tasks hrn hlen (fun x hx _ => hx)
        (fun hc => TaskStatus.noConfusion hc)
  | fail task_id err =>
    simp only [sysStep, mark_task_failed]
    by_cases hm : task_id ∈ s.queue.running_tasks
    · rw [if_pos hm]
      exact QInv_update2 ⟨hkn, hrn, hsub, hlen, hmax⟩ task_id TaskStatus.failed s.clock
        none (some err) (s.queue.running_tasks.erase task_id) (hrn.erase task_id)
        (le_trans (s.queue.running_tasks.erase_sublist task_id).length_le hlen)
        (fun x hx hne => (List.mem_erase_of_ne hne).2 hx)
        (fun hc => TaskStatus.noConfusion hc)
    · rw [if_neg hm]
      exact QInv_update2 ⟨hkn, hrn, hsub, hlen, hmax⟩ task_id TaskStatus.failed s.clock
        none (some err) s.queue.running_tasks hrn hlen (fun x hx _ => hx)
        (fun hc => TaskStatus.noConfusion hc)
  | cancel task_id =>
    simp only [sysStep]
    cases hl : lookupA s.queue.tasks task_id with
    | none =>
      simp only [cancel_task, hl]
      exact ⟨hkn, hrn, hsub, hlen, hmax⟩
    | some t =>
      simp only [cancel_task, hl]
      by_cases hm : task_id ∈ s.queue.running_tasks
      · rw [if_pos hm]
        exact QInv_update2 ⟨hkn, hrn, hsub, hlen, hmax⟩ task_id TaskStatus.cancelled s.clock
          none none (s.queue.running_tasks.erase task_id) (hrn.erase task_id)
          (le_trans (s.queue.running_tasks.erase_sublist task_id).length_le hlen)
          (fun x hx hne => (List.mem_erase_of_ne hne).2 hx)
          (fun hc => TaskStatus.noConfusion hc)
      · rw [if_neg hm]
        exact QInv_update2 ⟨hkn, hrn, hsub, hlen, hmax⟩ task_id TaskStatus.cancelled s.clock
          none none s.queue.running_tasks hrn hlen (fun x hx _ => hx)
          (fun hc => TaskStatus.noConfusion hc)
  | progress task_id step details =>
    simp only [sysStep]
    cases hl : lookupA s.queue.tasks task_id with
    | none =>
      simp only [add_task_progress, hl]
      exact ⟨hkn, hrn, hsub, hlen, hmax⟩
    | some t =>
      simp only [add_task_progress, hl]
      refine ⟨?_, hrn, ?_, hlen, hmax⟩
      · rw [keysA_updateA]
        exact hkn
      · refine RunSub_updateA hkn hsub (fun x hx _ => hx) ?_
        intro hr
        exact hsub _ (lookupA_mem hl) hr

theorem QInv_runSys {C : Nat} {s : SysState} (h : QInv C s.queue) (acts : List Action) :
    QInv C (runSys s acts).queue := by
  induction acts generalizing s with
  | nil => exact h
  | cons a rest ih => exact ih (QInv_sysStep h a)

theorem runningCount_le {C : Nat} {q : TaskQueue} (h : QInv C q) : runningCount q ≤ C := by
  obtain ⟨hkn, _, hsub, hlen, _⟩ := h
  have hsl : List.Sublist
      ((q.tasks.filter (fun p => p.2.status = TaskStatus.running)).map (fun p => p.1))
      (q.tasks.map (fun p => p.1)) :=
    (List.filter_sublist q.tasks).map (fun p => p.1)
  have hnd : ((q.tasks.filter (fun p => p.2.status = TaskStatus.running)).map
      (fun p => p.1)).Nodup := by
    simp only [keysA] at hkn
    exact hkn.sublist hsl
  have hss : ∀ x ∈ (q.tasks.filter (fun p => p.2.status = TaskStatus.running)).map
      (fun p => p.1), x ∈ q.running_tasks := by
    intro x hx
    rcases List.mem_map.1 hx with ⟨p, hp, rfl⟩
    have hpf := List.mem_filter.1 hp
    exact hsub p hpf.1 (of_decide_eq_true hpf.2)
  calc runningCount q
      = ((q.tasks.filter (fun p => p.2.status = TaskStatus.running)).map
          (fun p => p.1)).length := (List.length_map _ _).symm
    _ ≤ q.running_tasks.length := (hnd.subperm hss).length_le
    _ ≤ C := hlen

/-! Projection helpers for queries on single tasks, and equation lemmas for
the remaining operations. -/

/-- started_at of a stored task. -/
def startedAtOf (q : TaskQueue) (task_id : String) : Option (Option Nat) :=
  (lookupA q.tasks task_id).map Task.started_at

/-- completed_at of a stored task. -/
def completedAtOf (q : TaskQueue) (task_id : String) : Option (Option Nat) :=
  (lookupA q.tasks task_id).map Task.completed_at

/-- Progress log of a stored task. -/
def progressOf (q : TaskQueue) (task_id : String) : Option (List ProgressEntry) :=
  (lookupA q.tasks task_id).map Task.progress

/-- The execution parameters of a task (worker selector, model, profile). -/
def execParams (t : Task) : String × String × String :=
  (t.llm_provider, t.llm_model, t.browser_profile)

/-- Execution parameters of a stored task. -/
def paramsOf (q : TaskQueue) (task_id : String) : Option (String × String × String) :=
  (lookupA q.tasks task_id).map execParams

theorem applyUpdate_started_at_of_not_running (t : Task) (st : TaskStatus) (now : Nat)
    (res : Option Payload) (err : Option String) (h : st ≠ TaskStatus.running) :
    (applyUpdate t st now res err).started_at = t.started_at := by
  rw [applyUpdate_eq]
  simp [h]

theorem lookup_update_self (q : TaskQueue) (task_id : String) (t : Task) (st : TaskStatus)
    (now : Nat) (res : Option Payload) (err : Option String)
    (h : lookupA q.tasks task_id = some t) :
    lookupA (update_task_status q task_id st now res err).tasks task_id =
      some (applyUpdate t st now res err) := by
  rw [update_known q task_id t st now res err h]
  exact lookupA_updateA_self h

theorem lookup_update_other (q : TaskQueue) (task_id tid2 : String) (st : TaskStatus)
    (now : Nat) (res : Option Payload) (err : Option String) (hne : tid2 ≠ task_id) :
    lookupA (update_task_status q task_id st now res err).tasks tid2 =
      lookupA q.tasks tid2 := by
  cases hl : lookupA q.tasks task_id with
  | none => rw [update_unknown q task_id st now res err hl]
  | some t =>
    rw [update_known q task_id t st now res err hl]
    exact lookupA_updateA_ne hne

theorem statusOf_update_known (q : TaskQueue) (task_id : String) (t : Task)
    (st : TaskStatus) (now : Nat) (res : Option Payload) (err : Option String)
    (h : lookupA q.tasks task_id = some t) :
    statusOf (update_task_status q task_id st now res err) task_id = some st := by
  unfold statusOf
  rw [lookup_update_self q task_id t st now res err h]
  simp [applyUpdate_status]

theorem update_pending_queue (q : TaskQueue) (task_id : String) (st : TaskStatus)
    (now : Nat) (res : Option Payload) (err : Option String) :
    (update_task_status q task_id st now res err).pending_queue = q.pending_queue := by
  cases hl : lookupA q.tasks task_id with
  | none => rw [update_unknown q task_id st now res err hl]
  | some t => rw [update_known q task_id t st now res err hl]

/-- The shared running-map drop of cancel_task / mark_task_completed /
mark_task_failed leaves the task map untouched. -/
theorem dropRunning_tasks (q : TaskQueue) (task_id : String) :
    (if task_id ∈ q.running_tasks then
      { q with running_tasks := q.running_tasks.erase task_id } else q).tasks = q.tasks := by
  by_cases hm : task_id ∈ q.running_tasks
  · rw [if_pos hm]
  · rw [if_neg hm]

theorem dropRunning_pending (q : TaskQueue) (task_id : String) :
    (if task_id ∈ q.running_tasks then
      { q with running_tasks := q.running_tasks.erase task_id } else q).pending_queue =
      q.pending_queue := by
  by_cases hm : task_id ∈ q.running_tasks
  · rw [if_pos hm]
  · rw [if_neg hm]

theorem cancel_unknown (q : TaskQueue) (task_id : String) (now : Nat)
    (h : lookupA q.tasks task_id = none) : cancel_task q task_id now = (q, false) := by
  unfold cancel_task
  rw [h]

theorem cancel_known (q : TaskQueue) (task_id : String) (t : Task) (now : Nat)
    (h : lookupA q.tasks task_id = some t) :
    cancel_task q task_id now =
      (update_task_status
        (if task_id ∈ q.running_tasks then
          { q with running_tasks := q.running_tasks.erase task_id } else q)
        task_id TaskStatus.cancelled now none none, true) := by
  unfold cancel_task
  rw [h]

theorem addProgress_unknown (q : TaskQueue) (task_id step : String) (details : Payload)
    (now : Nat) (h : lookupA q.tasks task_id = none) :
    add_task_progress q task_id step details now = q := by
  unfold add_task_progress
  rw [h]

theorem addProgress_known (q : TaskQueue) (task_id step : String) (t : Task)
    (details : Payload) (now : Nat) (h : lookupA q.tasks task_id = some t) :
    add_task_progress q task_id step details now =
      { q with tasks := updateA q.tasks task_id (t.add_progress step details now) } := by
  unfold add_task_progress
  rw [h]

/-- Admission is blind to the task's current status: whenever the dequeued id
names an existing task and the running map is below the ceiling, one dispatch
iteration marks that task Running. -/
theorem dispatch_admits (q : TaskQueue) (task_id : String) (rest : List String) (t : Task)
    (now : Nat) (hq : q.pending_queue = task_id :: rest)
    (hcap : q.running_tasks.length < q.max_concurrent_tasks)
    (ht : lookupA q.tasks task_id = some t) :
    statusOf (dispatchStep q now) task_id = some TaskStatus.running := by
  rw [dispatchStep_cons q now task_id rest hq, if_neg (Nat.not_le.2 hcap)]
  unfold mark_task_running
  exact statusOf_update_known
    { q with pending_queue := rest, running_tasks := insertOnce task_id q.running_tasks }
    task_id t TaskStatus.running now none none ht

/-! Broadcaster lemmas. -/

theorem mem_insertOnce_iff {α : Type} [DecidableEq α] {x a : α} {l : List α} :
    x ∈ insertOnce a l ↔ x = a ∨ x ∈ l := by
  unfold insertOnce
  by_cases ha : a ∈ l
  · rw [if_pos ha]
    constructor
    · exact Or.inr
    · intro h
      rcases h with h | h
      · exact h ▸ ha
      · exact h
  · rw [if_neg ha]
    simp [List.mem_append, or_comm]

theorem insertOnce_ne_nil {α : Type} [DecidableEq α] (a : α) (l : List α) :
    insertOnce a l ≠ [] := by
  intro h
  have := mem_insertOnce_self a l
  rw [h] at this
  exact absurd this (List.not_mem_nil a)

theorem mem_updateA_weak {β : Type} {l : List (String × β)} {k : String} {v : β}
    {p : String × β} (hp : p ∈ updateA l k v) : p ∈ l ∨ p = (k, v) := by
  induction l with
  | nil => simp [updateA] at hp
  | cons q rest ih =>
    by_cases hk : q.1 = k
    · rw [updateA, if_pos hk] at hp
      rcases List.mem_cons.1 hp with hpv | hpr
      · right
        rw [hpv, hk]
      · exact Or.inl (List.mem_cons_of_mem _ hpr)
    · rw [updateA, if_neg hk] at hp
      rcases List.mem_cons.1 hp with hpq | hpr
      · exact Or.inl (hpq ▸ List.mem_cons_self _ _)
      · rcases ih hpr with hm | hv
        · exact Or.inl (List.mem_cons_of_mem _ hm)
        · exact Or.inr hv

/-- Full reachability invariant of the broadcaster. -/
def WSGood (s : WSState) : Prop := WSInv s ∧ WSNodup s

theorem WSGood_init : WSGood initWS := by
  refine ⟨⟨?_, ?_⟩, ⟨List.nodup_nil, ?_⟩⟩ <;>
    (intro p hp
     exact absurd hp (List.not_mem_nil p))

theorem WSGood_disconnect {s : WSState} (h : WSGood s) (ws : Nat) :
    WSGood (s.disconnect ws) := by
  obtain ⟨⟨hsub, hne⟩, han, hsn⟩ := h
  unfold WSState.disconnect
  refine ⟨⟨?_, ?_⟩, han.erase ws, ?_⟩
  · intro p hp x hx
    have hp1 := List.mem_filter.1 hp
    rcases List.mem_map.1 hp1.1 with ⟨p0, hp0, rfl⟩
    have hx0 : x ∈ p0.2 := (p0.2.erase_sublist ws).subset hx
    have hxa : x ∈ s.active_connections := hsub p0 hp0 x hx0
    have hxne : x ≠ ws := ((hsn p0 hp0).mem_erase_iff.1 hx).1
    exact (List.mem_erase_of_ne hxne).2 hxa
  · intro p hp hnil
    have hp1 := List.mem_filter.1 hp
    rw [hnil] at hp1
    simp at hp1
  · intro p hp
    have hp1 := List.mem_filter.1 hp
    rcases List.mem_map.1 hp1.1 with ⟨p0, hp0, rfl⟩
    exact (hsn p0 hp0).erase ws

theorem connect_none (s : WSState) (ws : Nat) :
    s.connect ws none = { s with active_connections := insertOnce ws s.active_connections } :=
  rfl

theorem connect_some_new (s : WSState) (ws : Nat) (tid : String)
    (h : lookupA s.task_subscribers tid = none) :
    s.connect ws (some tid) =
      { active_connections := insertOnce ws s.active_connections,
        task_subscribers := s.task_subscribers ++ [(tid, [ws])] } := by
  simp only [WSState.connect, h]

theorem connect_some_existing (s : WSState) (ws : Nat) (tid : String) (subs : List Nat)
    (h : lookupA s.task_subscribers tid = some subs) :
    s.connect ws (some tid) =
      { active_connections := insertOnce ws s.active_connections,
        task_subscribers := updateA s.task_subscribers tid (insertOnce ws subs) } := by
  simp only [WSState.connect, h]

theorem WSGood_connect {s : WSState} (h : WSGood s) (ws : Nat) (tid? : Option String) :
    WSGood (s.connect ws tid?) := by
  obtain ⟨⟨hsub, hne⟩, han, hsn⟩ := h
  cases tid? with
  | none =>
    rw [connect_none]
    exact ⟨⟨fun p hp x hx => mem_insertOnce_of_mem ws (hsub p hp x hx), hne⟩,
      nodup_insertOnce ws han, hsn⟩
  | some tid =>
    cases hl : lookupA s.task_subscribers tid with
    | none =>
      rw [connect_some_new s ws tid hl]
      refine ⟨⟨?_, ?_⟩, nodup_insertOnce ws han, ?_⟩
      · intro p hp x hx
        rcases List.mem_append.1 hp with hpl | hpr
        · exact mem_insertOnce_of_mem ws (hsub p hpl x hx)
        · rw [List.mem_singleton] at hpr
          rw [hpr] at hx
          rw [List.mem_singleton] at hx
          rw [hx]
          exact mem_insertOnce_self ws s.active_connections
      · intro p hp
        rcases List.mem_append.1 hp with hpl | hpr
        · exact hne p hpl
        · rw [List.mem_singleton] at hpr
          rw [hpr]
          intro hc
          exact List.noConfusion hc
      · intro p hp
        rcases List.mem_append.1 hp with hpl | hpr
        · exact hsn p hpl
        · rw [List.mem_singleton] at hpr
          rw [hpr]
          exact List.nodup_singleton ws
    | some subs =>
      rw [connect_some_existing s ws tid subs hl]
      have hsubsmem : (tid, subs) ∈ s.task_subscribers := lookupA_mem hl
      refine ⟨⟨?_, ?_⟩, nodup_insertOnce ws han, ?_⟩
      · intro p hp x hx
        rcases mem_updateA_weak hp with hpl | hpv
        · exact mem_insertOnce_of_mem ws (hsub p hpl x hx)
        · rw [hpv] at hx
          rcases mem_insertOnce_iff.1 hx with hxw | hxs
          · rw [hxw]
            exact mem_insertOnce_self ws s.active_connections
          · exact mem_insertOnce_of_mem ws (hsub _ hsubsmem x hxs)
      · intro p hp
        rcases mem_updateA_weak hp with hpl | hpv
        · exact hne p hpl
        · rw [hpv]
          exact insertOnce_ne_nil ws subs
      · intro p hp
        rcases mem_updateA_weak hp with hpl | hpv
        · exact hsn p hpl
        · rw [hpv]
          exact nodup_insertOnce ws (hsn _ hsubsmem)

theorem WSGood_foldl_disconnect {s : WSState} (h : WSGood s) (l : List Nat) :
    WSGood (l.foldl WSState.disconnect s) := by
  induction l generalizing s with
  | nil => exact h
  | cons a rest ih => exact ih (WSGood_disconnect h a)

theorem sendAll_empty (s : WSState) (fails : Nat → Bool)
    (h : s.active_connections = []) : s.send_to_all fails = s := by
  unfold WSState.send_to_all
  rw [h]
  rfl

theorem WSGood_sendAll {s : WSState} (h : WSGood s) (fails : Nat → Bool) :
    WSGood (s.send_to_all fails) := by
  unfold WSState.send_to_all
  by_cases hb : s.active_connections.isEmpty = true
  · rw [if_pos hb]
    exact h
  · rw [if_neg hb]
    exact WSGood_foldl_disconnect h _

theorem sendTask_none (s : WSState) (tid : String) (fails : Nat → Bool)
    (h : lookupA s.task_subscribers tid = none) :
    s.send_to_task_subscribers tid fails = s := by
  unfold WSState.send_to_task_subscribers
  rw [h]

theorem WSGood_sendTask {s : WSState} (h : WSGood s) (tid : String) (fails : Nat → Bool) :
    WSGood (s.send_to_task_subscribers tid fails) := by
  unfold WSState.send_to_task_subscribers
  cases hl : lookupA s.task_subscribers tid with
  | none => exact h
  | some subs => exact WSGood_foldl_disconnect h _

theorem WSGood_step {s : WSState} (h : WSGood s) (op : WSOp) : WSGood (wsStep s op) := by
  cases op with
  | connect ws tid => exact WSGood_connect h ws tid
  | disconnect ws => exact WSGood_disconnect h ws
  | sendAll fails => exact WSGood_sendAll h fails
  | sendTask tid fails => exact WSGood_sendTask h tid fails

theorem WSGood_runWS {s : WSState} (h : WSGood s) (ops : List WSOp) :
    WSGood (runWS s ops) := by
  induction ops generalizing s with
  | nil => exact h
  | cons op rest ih => exact ih (WSGood_step h op)

/-- Disconnecting a connection that is not active and (by the invariant) not
subscribed anywhere is a no-op. -/
theorem disconnect_not_mem_noop (s : WSState) (ws : Nat) (hinv : WSInv s)
    (hws : ws ∉ s.active_connections) : s.disconnect ws = s := by
  obtain ⟨hsub, hne⟩ := hinv
  unfold WSState.disconnect
  have h1 : s.active_connections.erase ws = s.active_connections :=
    List.erase_of_not_mem hws
  have h2 : s.task_subscribers.map (fun p => (p.1, p.2.erase ws)) = s.task_subscribers := by
    have hid : ∀ p ∈ s.task_subscribers, (fun p => (p.1, p.2.erase ws)) p = p := by
      intro p hp
      have hwp : ws ∉ p.2 := fun hin => hws (hsub p hp ws hin)
      show (p.1, p.2.erase ws) = p
      rw [List.erase_of_not_mem hwp]
    rw [List.map_congr_left hid, List.map_id']
  rw [h2]
  have h3 : s.task_subscribers.filter (fun p => !p.2.isEmpty) = s.task_subscribers := by
    apply List.filter_eq_self.2
    intro p hp
    have hn := hne p hp
    cases hc : p.2 with
    | nil => exact absurd hc hn
    | cons a l => rfl
  rw [h1, h3]

/-! Concrete sample states used by counterexamples and witnesses. -/

def sA : String := "t"

def cmdA : String := "open page"

def provA : String := "mac_studio"

def provB : String := "gemini"

def modelA : String := "llama4:scout"

def profA : String := "anti_bot"

def resA : Payload := [("url", "done")]

def errA : String := "boom"

def errB : String := "other failure"

def stepA : String := "navigate"

def detA : Payload := [("k", "v")]

/-- Sample Completed task. -/
def tDone : Task :=
  { id := sA, command := cmdA, status := TaskStatus.completed, created_at := 0,
    started_at := some 1, completed_at := some 3, result := some resA, error := none,
    progress := [], llm_provider := provA, llm_model := modelA, browser_profile := profA }

/-- Queue holding only the sample Completed task. -/
def qDone : TaskQueue :=
  { tasks := [(sA, tDone)], pending_queue := [], max_concurrent_tasks := 3,
    running_tasks := [] }

/-- Same task but with a different worker selector. -/
def tDoneB : Task := { tDone with llm_provider := provB }

def qDoneB : TaskQueue := { qDone with tasks := [(sA, tDoneB)] }

/-- Sample Failed task carrying the worker's error text. -/
def tFail : Task :=
  { tDone with
    status := TaskStatus.failed, result := none, error := some errA,
    completed_at := some 4 }

/-- Same Failed task but with a different stored error text. -/
def tFail2 : Task := { tFail with error := some errB }

def qFail : TaskQueue := { qDone with tasks := [(sA, tFail)] }

def qFail2 : TaskQueue := { qDone with tasks := [(sA, tFail2)] }

/-- Sample Pending task sitting in the queue. -/
def tPend : Task :=
  { tDone with
    status := TaskStatus.pending, started_at := none, completed_at := none,
    result := none }

def qPend : TaskQueue :=
  { tasks := [(sA, tPend)], pending_queue := [sA], max_concurrent_tasks := 3,
    running_tasks := [] }

def qEmpty : TaskQueue := TaskQueue.init 3

/-! Claim theorems. -/

/-- C1 counterexample: update_task_status applies the illegal edge
Completed → Pending (not an edge of the section 4.2 state machine) without
reporting any InvalidTransition condition — the transition simply happens. -/
theorem C1_counterexample :
    specLegalEdge TaskStatus.completed TaskStatus.pending = false ∧
    statusOf qDone sA = some TaskStatus.completed ∧
    statusOf (update_task_status qDone sA TaskStatus.pending 5 none none) sA =
      some TaskStatus.pending := by
  decide

/-- C1 (amended): update_task_status performs no validation and reports no
failure condition: a request for an unknown id is silently ignored (the state
is returned unchanged, with no NotFound signal), and for a known id the
requested status is installed unconditionally, whether or not the edge is
legal from the current status. -/
theorem C1_amended_no_validation (q : TaskQueue) (task_id : String) (st : TaskStatus)
    (now : Nat) (res : Option Payload) (err : Option String) :
    (lookupA q.tasks task_id = none → update_task_status q task_id st now res err = q) ∧
    (∀ t, lookupA q.tasks task_id = some t →
      statusOf (update_task_status q task_id st now res err) task_id = some st) :=
  ⟨update_unknown q task_id st now res err,
   fun t h => statusOf_update_known q task_id t st now res err h⟩

/-- C1 witness: the amended statement evaluated at concrete inputs. -/
theorem C1_amended_witness :
    update_task_status qEmpty sA TaskStatus.running 5 none none = qEmpty ∧
    statusOf (update_task_status qDone sA TaskStatus.pending 5 none none) sA =
      some TaskStatus.pending :=
  ⟨(C1_amended_no_validation qEmpty sA TaskStatus.running 5 none none).1 (by decide),
   (C1_amended_no_validation qDone sA TaskStatus.pending 5 none none).2 tDone (by decide)⟩

/-- C2 counterexample: cancelling an already-Completed task is not a no-op —
cancel_task reports success (True), moves the task from the terminal status
Completed to Cancelled, and overwrites completed_at. -/
theorem C2_counterexample :
    statusOf qDone sA = some TaskStatus.completed ∧
    (cancel_task qDone sA 9).2 = true ∧
    statusOf (cancel_task qDone sA 9).1 sA = some TaskStatus.cancelled ∧
    completedAtOf (cancel_task qDone sA 9).1 sA = some (some 9) := by
  decide

/-- C2 (amended): terminal statuses are not protected: cancel_task on a task
in any terminal status reports success and moves it to Cancelled, overwriting
completed_at with the cancellation time, instead of being a no-op reported as
NotFound/AlreadyTerminal. -/
theorem C2_amended_terminal_mutable (q : TaskQueue) (task_id : String) (t : Task)
    (now : Nat) (h : lookupA q.tasks task_id = some t)
    (_hterm : t.status = TaskStatus.completed ∨ t.status = TaskStatus.failed ∨
      t.status = TaskStatus.cancelled) :
    (cancel_task q task_id now).2 = true ∧
    statusOf (cancel_task q task_id now).1 task_id = some TaskStatus.cancelled ∧
    completedAtOf (cancel_task q task_id now).1 task_id = some (some now) := by
  rw [cancel_known q task_id t now h]
  have h1 : lookupA (if task_id ∈ q.running_tasks then
      { q with running_tasks := q.running_tasks.erase task_id } else q).tasks task_id =
      some t := by
    rw [dropRunning_tasks]
    exact h
  refine ⟨rfl, ?_, ?_⟩
  · exact statusOf_update_known _ task_id t TaskStatus.cancelled now none none h1
  · unfold completedAtOf
    rw [lookup_update_self _ task_id t TaskStatus.cancelled now none none h1]
    simp [applyUpdate_completed_at_terminal t TaskStatus.cancelled now none none
      (Or.inr (Or.inr rfl))]

/-- C2 witness: the amended statement evaluated at a concrete Completed task. -/
theorem C2_amended_witness :
    (cancel_task qDone sA 9).2 = true ∧
    statusOf (cancel_task qDone sA 9).1 sA = some TaskStatus.cancelled ∧
    completedAtOf (cancel_task qDone sA 9).1 sA = some (some 9) :=
  C2_amended_terminal_mutable qDone sA tDone 9 (by decide) (Or.inl (by decide))

/-- C3: for every ceiling C and every event sequence driven through the
orchestrator (creations, dispatch-loop iterations, worker completions and
failures, cancels, progress callbacks), at most C stored tasks are ever
simultaneously in status Running: admission compares the in-flight count with
the ceiling before marking Running, and requeues the dequeued id when at
capacity. -/
theorem C3_running_at_most_ceiling (C : Nat) (acts : List Action) :
    runningCount (runSys (initSys C) acts).queue ≤ C :=
  runningCount_le (QInv_runSys (QInv_init C) acts)

/-- C4 counterexample: cancelling a Pending task does not remove its id from
the pending queue, and a later dispatch iteration admits it anyway — the
cancelled task ends up Running with started_at set. -/
theorem C4_counterexample :
    statusOf (runSys (initSys 3)
      [Action.create sA cmdA provA modelA profA, Action.cancel sA]).queue sA =
      some TaskStatus.cancelled ∧
    (runSys (initSys 3)
      [Action.create sA cmdA provA modelA profA, Action.cancel sA]).queue.pending_queue =
      [sA] ∧
    statusOf (runSys (initSys 3)
      [Action.create sA cmdA provA modelA profA, Action.cancel sA,
        Action.dispatch]).queue sA = some TaskStatus.running ∧
    startedAtOf (runSys (initSys 3)
      [Action.create sA cmdA provA modelA profA, Action.cancel sA,
        Action.dispatch]).queue sA = some (some 2) := by
  decide

/-- C4 (amended): cancelling a Pending task sets its status directly to
Cancelled without touching started_at, but leaves its id in the pending
queue; when the dispatch loop later dequeues that id below capacity it admits
the task regardless of the cancellation, moving it to Running. -/
theorem C4_amended_cancel_not_dequeued (q : TaskQueue) (task_id : String) (t : Task)
    (now now2 : Nat) (h : lookupA q.tasks task_id = some t)
    (_hp : t.status = TaskStatus.pending) :
    statusOf (cancel_task q task_id now).1 task_id = some TaskStatus.cancelled ∧
    startedAtOf (cancel_task q task_id now).1 task_id = some t.started_at ∧
    (cancel_task q task_id now).1.pending_queue = q.pending_queue ∧
    (∀ rest, (cancel_task q task_id now).1.pending_queue = task_id :: rest →
      (cancel_task q task_id now).1.running_tasks.length <
        (cancel_task q task_id now).1.max_concurrent_tasks →
      statusOf (dispatchStep (cancel_task q task_id now).1 now2) task_id =
        some TaskStatus.running) := by
  rw [cancel_known q task_id t now h]
  have h1 : lookupA (if task_id ∈ q.running_tasks then
      { q with running_tasks := q.running_tasks.erase task_id } else q).tasks task_id =
      some t := by
    rw [dropRunning_tasks]
    exact h
  refine ⟨?_, ?_, ?_, ?_⟩
  · exact statusOf_update_known _ task_id t TaskStatus.cancelled now none none h1
  · unfold startedAtOf
    rw [lookup_update_self _ task_id t TaskStatus.cancelled now none none h1]
    simp [applyUpdate_started_at_of_not_running t TaskStatus.cancelled now none none
      (fun hc => TaskStatus.noConfusion hc)]
  · rw [update_pending_queue, dropRunning_pending]
  · intro rest hrest hcap
    exact dispatch_admits _ task_id rest _ now2 hrest hcap
      (lookup_update_self _ task_id t TaskStatus.cancelled now none none h1)

/-- C4 witness: the amended statement evaluated on a concrete Pending task. -/
theorem C4_amended_witness :
    statusOf (cancel_task qPend sA 5).1 sA = some TaskStatus.cancelled ∧
    startedAtOf (cancel_task qPend sA 5).1 sA = some none ∧
    (cancel_task qPend sA 5).1.pending_queue = [sA] ∧
    statusOf (dispatchStep (cancel_task qPend sA 5).1 6) sA = some TaskStatus.running := by
  have hc := C4_amended_cancel_not_dequeued qPend sA tPend 5 6 (by decide) (by decide)
  exact ⟨hc.1, hc.2.1, hc.2.2.1, hc.2.2.2 [] (by decide) (by decide)⟩

/-- C5 counterexample: completed_at is not write-once — a second terminal
transition overwrites the value 3 recorded at completion with the new time 7. -/
theorem C5_counterexample :
    completedAtOf qDone sA = some (some 3) ∧
    completedAtOf (update_task_status qDone sA TaskStatus.cancelled 7 none none) sA =
      some (some 7) := by
  decide

/-- C5 (amended): started_at is write-once — once set it survives every
update_task_status call — but completed_at is not: every transition into a
terminal status overwrites completed_at with the current time, even when it
was already set. -/
theorem C5_amended_timestamps (q : TaskQueue) (task_id tid2 : String) (st : TaskStatus)
    (now : Nat) (res : Option Payload) (err : Option String) :
    (∀ t2 x, lookupA q.tasks tid2 = some t2 → t2.started_at = some x →
      startedAtOf (update_task_status q task_id st now res err) tid2 = some (some x)) ∧
    (∀ t, lookupA q.tasks task_id = some t →
      (st = TaskStatus.completed ∨ st = TaskStatus.failed ∨ st = TaskStatus.cancelled) →
      completedAtOf (update_task_status q task_id st now res err) task_id =
        some (some now)) := by
  constructor
  · intro t2 x h2 hx
    unfold startedAtOf
    by_cases he : tid2 = task_id
    · subst he
      rw [lookup_update_self q tid2 t2 st now res err h2]
      simp [applyUpdate_started_at_of_set t2 st now x res err hx]
    · rw [lookup_update_other q task_id tid2 st now res err he, h2]
      simp [hx]
  · intro t h hterm
    unfold completedAtOf
    rw [lookup_update_self q task_id t st now res err h]
    simp [applyUpdate_completed_at_terminal t st now res err hterm]

/-- C5 witness: the amended statement evaluated on the sample Completed task. -/
theorem C5_amended_witness :
    startedAtOf (update_task_status qDone sA TaskStatus.cancelled 7 none none) sA =
      some (some 1) ∧
    completedAtOf (update_task_status qDone sA TaskStatus.cancelled 7 none none) sA =
      some (some 7) :=
  ⟨(C5_amended_timestamps qDone sA sA TaskStatus.cancelled 7 none none).1 tDone 1
      (by decide) (by decide),
   (C5_amended_timestamps qDone sA sA TaskStatus.cancelled 7 none none).2 tDone
      (by decide) (Or.inr (Or.inr rfl))⟩

/-- C6 counterexample: add_task_progress appends to a task already in the
terminal status Completed instead of leaving it unchanged. -/
theorem C6_counterexample :
    statusOf qDone sA = some TaskStatus.completed ∧
    progressOf qDone sA = some [] ∧
    progressOf (add_task_progress qDone sA stepA detA 11) sA =
      some [{ timestamp := 11, step := stepA, details := detA }] := by
  decide

/-- C6 (amended): add_task_progress appends exactly one entry whenever the id
names an existing task, regardless of its status (terminal included); it is a
no-op only when the id is unknown. -/
theorem C6_amended_append_any_status (q : TaskQueue) (task_id step : String)
    (details : Payload) (now : Nat) :
    (lookupA q.tasks task_id = none → add_task_progress q task_id step details now = q) ∧
    (∀ t, lookupA q.tasks task_id = some t →
      progressOf (add_task_progress q task_id step details now) task_id =
        some (t.progress ++ [{ timestamp := now, step := step, details := details }])) := by
  constructor
  · exact addProgress_unknown q task_id step details now
  · intro t h
    rw [addProgress_known q task_id step t details now h]
    simp [progressOf, lookupA_updateA_self h, Task.add_progress]

/-- C6 witness: the amended statement evaluated on unknown id and on the
sample Completed task. -/
theorem C6_amended_witness :
    add_task_progress qEmpty sA stepA detA 11 = qEmpty ∧
    progressOf (add_task_progress qDone sA stepA detA 11) sA =
      some [{ timestamp := 11, step := stepA, details := detA }] :=
  ⟨(C6_amended_append_any_status qEmpty sA stepA detA 11).1 (by decide),
   (C6_amended_append_any_status qDone sA stepA detA 11).2 tDone (by decide)⟩

theorem getResult_unknown (q : TaskQueue) (task_id : String)
    (h : lookupA q.tasks task_id = none) :
    get_task_result q task_id = ResultResponse.notFound := by
  unfold get_task_result
  rw [h]

theorem getResult_known (q : TaskQueue) (task_id : String) (t : Task)
    (h : lookupA q.tasks task_id = some t) :
    get_task_result q task_id =
      if t.status ≠ TaskStatus.completed then
        ResultResponse.notCompleted ("Task not completed (status: " ++ t.status.value ++ ")")
      else ResultResponse.ok task_id t.result t.progress t.completed_at := by
  unfold get_task_result
  rw [h]

/-- C7 counterexample: two Failed tasks that differ only in the stored error
text produce identical responses from the result endpoint — the failure
response cannot carry the worker's error text. -/
theorem C7_counterexample :
    (lookupA qFail.tasks sA).map Task.error = some (some errA) ∧
    (lookupA qFail2.tasks sA).map Task.error = some (some errB) ∧
    errA ≠ errB ∧
    get_task_result qFail sA = get_task_result qFail2 sA := by
  decide

/-- C7 (amended): the result endpoint yields NotFound on an unknown id; on a
task whose status is not Completed — Failed included — it fails with a detail
string carrying only the current status, not the stored error text; on a
Completed task it returns exactly the stored result payload. -/
theorem C7_amended_result_endpoint (q : TaskQueue) (task_id : String) :
    (lookupA q.tasks task_id = none → get_task_result q task_id = ResultResponse.notFound) ∧
    (∀ t, lookupA q.tasks task_id = some t → t.status ≠ TaskStatus.completed →
      get_task_result q task_id =
        ResultResponse.notCompleted
          ("Task not completed (status: " ++ t.status.value ++ ")")) ∧
    (∀ t, lookupA q.tasks task_id = some t → t.status = TaskStatus.completed →
      get_task_result q task_id =
        ResultResponse.ok task_id t.result t.progress t.completed_at) := by
  refine ⟨getResult_unknown q task_id, ?_, ?_⟩
  · intro t h hne
    rw [getResult_known q task_id t h, if_pos hne]
  · intro t h hc
    rw [getResult_known q task_id t h, if_neg (fun hn => hn hc)]

/-- C7 witness: the amended statement evaluated on an unknown id, the sample
Failed task, and the sample Completed task. -/
theorem C7_amended_witness :
    get_task_result qEmpty sA = ResultResponse.notFound ∧
    get_task_result qFail sA =
      ResultResponse.notCompleted
        ("Task not completed (status: " ++ TaskStatus.failed.value ++ ")") ∧
    get_task_result qDone sA = ResultResponse.ok sA (some resA) [] (some 3) :=
  ⟨(C7_amended_result_endpoint qEmpty sA).1 (by decide),
   (C7_amended_result_endpoint qFail sA).2.1 tFail (by decide) (by decide),
   (C7_amended_result_endpoint qDone sA).2.2 tDone (by decide) (by decide)⟩

/-- C8 counterexample: two tasks that differ only in the worker selector have
identical get_task_status snapshots — the status query does not echo the
execution parameters. -/
theorem C8_counterexample :
    paramsOf qDone sA = some (provA, modelA, profA) ∧
    paramsOf qDoneB sA = some (provB, modelA, profA) ∧
    provA ≠ provB ∧
    get_task_status qDone sA = get_task_status qDoneB sA := by
  decide

theorem paramsOf_update (q : TaskQueue) (task_id tid2 : String) (st : TaskStatus)
    (now : Nat) (res : Option Payload) (err : Option String) :
    paramsOf (update_task_status q task_id st now res err) tid2 = paramsOf q tid2 := by
  by_cases he : tid2 = task_id
  · subst he
    cases hl : lookupA q.tasks tid2 with
    | none => rw [update_unknown q tid2 st now res err hl]
    | some t =>
      unfold paramsOf
      rw [lookup_update_self q tid2 t st now res err hl, hl]
      simp [execParams, applyUpdate_eq]
  · unfold paramsOf
    rw [lookup_update_other q task_id tid2 st now res err he]

theorem paramsOf_tasks_congr (q1 q2 : TaskQueue) (task_id : String)
    (h : q1.tasks = q2.tasks) : paramsOf q1 task_id = paramsOf q2 task_id := by
  unfold paramsOf
  rw [h]

theorem paramsOf_updateA (q : TaskQueue) (task_id tid2 : String) (t t' : Task)
    (hl : lookupA q.tasks task_id = some t) (hpar : execParams t' = execParams t) :
    paramsOf { q with tasks := updateA q.tasks task_id t' } tid2 = paramsOf q tid2 := by
  show (lookupA (updateA q.tasks task_id t') tid2).map execParams =
    (lookupA q.tasks tid2).map execParams
  by_cases he : tid2 = task_id
  · subst he
    rw [lookupA_updateA_self hl, hl]
    simp [hpar]
  · rw [lookupA_updateA_ne he]

/-- C8 (amended): the execution parameters fixed at creation are never
mutated by any subsequent operation — every mutation path leaves them
untouched for every stored task — but they are not echoed by
get_task_status, whose snapshot omits them entirely. -/
theorem C8_amended_params_immutable (q : TaskQueue) (task_id tid2 step : String)
    (st : TaskStatus) (now : Nat) (res : Option Payload) (err : Option String)
    (details rp : Payload) (es : String) :
    paramsOf (update_task_status q task_id st now res err) tid2 = paramsOf q tid2 ∧
    paramsOf (add_task_progress q task_id step details now) tid2 = paramsOf q tid2 ∧
    paramsOf (cancel_task q task_id now).1 tid2 = paramsOf q tid2 ∧
    paramsOf (mark_task_running q task_id now) tid2 = paramsOf q tid2 ∧
    paramsOf (mark_task_completed q task_id rp now) tid2 = paramsOf q tid2 ∧
    paramsOf (mark_task_failed q task_id es now) tid2 = paramsOf q tid2 := by
  refine ⟨paramsOf_update q task_id tid2 st now res err, ?_, ?_, ?_, ?_, ?_⟩
  · cases hl : lookupA q.tasks task_id with
    | none => rw [addProgress_unknown q task_id step details now hl]
    | some t =>
      rw [addProgress_known q task_id step t details now hl]
      exact paramsOf_updateA q task_id tid2 t (t.add_progress step details now) hl rfl
  · cases hl : lookupA q.tasks task_id with
    | none => rw [cancel_unknown q task_id now hl]
    | some t =>
      rw [cancel_known q task_id t now hl]
      exact (paramsOf_update _ task_id tid2 TaskStatus.cancelled now none none).trans
        (paramsOf_tasks_congr _ q tid2 (dropRunning_tasks q task_id))
  · unfold mark_task_running
    exact (paramsOf_update _ task_id tid2 TaskStatus.running now none none).trans
      (paramsOf_tasks_congr _ q tid2 rfl)
  · unfold mark_task_completed
    exact (paramsOf_update _ task_id tid2 TaskStatus.completed now (some rp) none).trans
      (paramsOf_tasks_congr _ q tid2 (dropRunning_tasks q task_id))
  · unfold mark_task_failed
    exact (paramsOf_update _ task_id tid2 TaskStatus.failed now none (some es)).trans
      (paramsOf_tasks_congr _ q tid2 (dropRunning_tasks q task_id))

/-- C9: publishing with no matching subscriber is a no-op — send_to_all
returns the state unchanged when no connection is active, and
send_to_task_subscribers returns it unchanged when the task id has no
subscriber entry — and disconnecting a connection that was never subscribed,
or was already disconnected, leaves the state unchanged. -/
theorem C9_noop_broadcasts (s : WSState) (fails : Nat → Bool) (ws : Nat) (tid : String) :
    (s.active_connections = [] → s.send_to_all fails = s) ∧
    (lookupA s.task_subscribers tid = none → s.send_to_task_subscribers tid fails = s) ∧
    (WSInv s → ws ∉ s.active_connections → s.disconnect ws = s) ∧
    (WSInv s → WSNodup s → (s.disconnect ws).disconnect ws = s.disconnect ws) := by
  refine ⟨sendAll_empty s fails, sendTask_none s tid fails,
    disconnect_not_mem_noop s ws, ?_⟩
  intro hinv hnd
  have hg : WSGood (s.disconnect ws) := WSGood_disconnect ⟨hinv, hnd⟩ ws
  have hnotin : ws ∉ (s.disconnect ws).active_connections := by
    show ws ∉ s.active_connections.erase ws
    exact hnd.1.not_mem_erase
  exact disconnect_not_mem_noop _ ws hg.1 hnotin

def failsAll : Nat → Bool := fun _ => true

/-- C9 witness: the statement evaluated on the empty broadcaster state. -/
theorem C9_witness :
    WSState.send_to_all initWS failsAll = initWS ∧
    WSState.send_to_task_subscribers initWS sA failsAll = initWS ∧
    WSState.disconnect initWS 7 = initWS ∧
    WSState.disconnect (WSState.disconnect initWS 7) 7 = WSState.disconnect initWS 7 := by
  have hc := C9_noop_broadcasts initWS failsAll 7 sA
  have hinv : WSInv initWS :=
    ⟨fun p hp => absurd hp (List.not_mem_nil p), fun p hp => absurd hp (List.not_mem_nil p)⟩
  have hnd : WSNodup initWS :=
    ⟨List.nodup_nil, fun p hp => absurd hp (List.not_mem_nil p)⟩
  exact ⟨hc.1 rfl, hc.2.1 rfl, hc.2.2.1 hinv (List.not_mem_nil 7), hc.2.2.2 hinv hnd⟩

/-- C10: after any sequence of connect, disconnect and send operations
(including the failure-cleanup paths of the sends), every connection in any
per-task subscriber set is also active, and no subscriber set is empty. -/
theorem C10_broadcaster_bookkeeping (ops : List WSOp) : WSInv (runWS initWS ops) :=
  (WSGood_runWS WSGood_init ops).1

end Svc
